import Mathlib

/-!
Verification of the polling Prometheus exporters (hue, openweather, nest).

This file gives a shallow embedding of the parts of the source relevant to the
checked claims:

* metric values and the gauge registry (prometheus_client gauges, idempotent
  overwrite, series never deleted);
* the hue translator functions update_temperature_metrics,
  update_lightlevel_metrics and get_state;
* the openweather OneCallResponse.wind_gust accessor composed with Gauge.set;
* the nest ThermostatCollector.get_latest_state cache;
* the scheduler utils.periodic, modelled as a deterministic simulation where
  asyncio.sleep wakes exactly at the requested monotonic time and each cycle
  has a given duration;
* the composition with_connection_retry(periodic, update, ...) used by the
  hue and openweather main functions, driven by a script of fetch outcomes;
* the cooperative-scheduling (single-threaded asyncio event loop) semantics
  of a publish racing concurrent scrapes: code between await points runs as
  one atomic block, and neither update_metrics nor the hue/openweather
  publish loops contain an await, so one publish is one block.

Machine floats are modelled by an exact value type: rationals for values the
source computes exactly, a first-class NaN, and a symbolic constructor for
the one transcendental the source computes, 10 ** q.
-/

/-- A published metric value. rat q is the exact numeric value q; nan is the
IEEE NaN used by the source for unreachable or absent data; pow10 q denotes
the real number 10 ** q, the only transcendental the source produces
(the hue lux curve). -/
inductive Val where
  | nan : Val
  | rat : ℚ → Val
  | pow10 : ℚ → Val
deriving DecidableEq

/-- Division of a value by a rational constant, mirroring float division:
NaN propagates. The pow10 arm is never produced before a division by any
source path; it is sent to NaN for totality. -/
def Val.divQ : Val → ℚ → Val
  | .rat q, c => .rat (q / c)
  | _, _ => .nan

/-- The hue lux curve 10 ** ((raw - 1) / 10000), from
update_lightlevel_metrics. Subtraction and division on the raw reading are
exact; a NaN raw value propagates to NaN as in float semantics. -/
def Val.lux : Val → Val
  | .rat r => .pow10 ((r - 1) / 10000)
  | _ => .nan

/-- One (metric name, label set, value) sample, as produced by one
Gauge.labels(...).set(...) call. -/
structure Sample where
  name : String
  labels : List (String × String)
  value : Val
deriving DecidableEq

/-- The identity of one series: metric name plus label set. -/
abbrev SampleKey := String × List (String × String)

/-- The gauge registry: last-observed value per series. -/
abbrev MetricSet := List (SampleKey × Val)

/-- The key of a sample. -/
def sampleKey (s : Sample) : SampleKey := (s.name, s.labels)

/-- One Gauge.set call: overwrite the series if present, append it
otherwise. Series are never deleted, matching prometheus_client. -/
def setSample (ms : MetricSet) (s : Sample) : MetricSet :=
  if ms.any (fun e => e.1 = sampleKey s) then
    ms.map (fun e => if e.1 = sampleKey s then (e.1, s.value) else e)
  else
    ms ++ [(sampleKey s, s.value)]

/-- The publish step of one cycle: the translator's samples applied in
order, one Gauge.set each. -/
def publish (ms : MetricSet) (samples : List Sample) : MetricSet :=
  samples.foldl setSample ms

/-! ## Hue translator (hue-exporter.py) -/

/-- A hue sensor dict as read by the update functions. The config dict
carries the reachable flag; a state field is either missing from the state
dict (none), present with JSON null (some none), or present with a numeric
reading (some (some q)). -/
structure HueSensor where
  uniqueid : String
  reachable : Bool
  temperature : Option (Option ℚ)
  lightlevel : Option (Option ℚ)
deriving DecidableEq

/-- get_state of hue-exporter.py: an unreachable sensor yields NaN before
the state dict is touched; otherwise a missing key raises KeyError, a null
value yields NaN, and a numeric value is returned as-is. -/
def getState (reachable : Bool) (field : Option (Option ℚ)) : Except String Val :=
  if reachable = false then .ok .nan
  else
    match field with
    | none => .error "KeyError"
    | some none => .ok .nan
    | some (some q) => .ok (.rat q)

/-- The label set used by every hue gauge. -/
def hueLabels (sensorid uniqueid : String) : List (String × String) :=
  [("sensorid", sensorid), ("uniqueid", uniqueid)]

/-- update_temperature_metrics: one sample, the raw fixed-point reading
divided by 100 (scaling factor 100). A KeyError from get_state propagates. -/
def updateTemperatureMetrics (sensor : HueSensor) (sensorid : String) :
    Except String (List Sample) :=
  (getState sensor.reachable sensor.temperature).map fun v =>
    [⟨"hue_sensor_temperature_c", hueLabels sensorid sensor.uniqueid, v.divQ 100⟩]

/-- update_lightlevel_metrics: two samples, the lux curve
10 ** ((raw - 1) / 10000) and the raw reading itself. -/
def updateLightlevelMetrics (sensor : HueSensor) (sensorid : String) :
    Except String (List Sample) :=
  (getState sensor.reachable sensor.lightlevel).map fun raw =>
    [⟨"hue_sensor_lightlevel", hueLabels sensorid sensor.uniqueid, raw.lux⟩,
     ⟨"hue_sensor_lightlevel_raw", hueLabels sensorid sensor.uniqueid, raw⟩]

/-- The list of series keys an update function emits: its samples' keys on
success, nothing if it raised. -/
def keysOfE : Except String (List Sample) → List SampleKey
  | .ok l => l.map sampleKey
  | .error _ => []

/-! ## OpenWeather wind_gust (openweather-exporter.py) -/

/-- The Python value produced by a dict access: None (JSON null), a number,
or the math.nan default. -/
inductive PyVal where
  | pyNone : PyVal
  | pyNum : ℚ → PyVal
  | pyNan : PyVal
deriving DecidableEq

/-- OneCallResponse.wind_gust: data[current].get(wind_gust, math.nan).
A missing key yields the math.nan default; a key present with JSON null
yields None itself, since .get only substitutes the default for a missing
key. -/
def windGust (current : Option (Option ℚ)) : PyVal :=
  match current with
  | none => .pyNan
  | some none => .pyNone
  | some (some q) => .pyNum q

/-- prometheus_client Gauge.set, which calls float(value): a number or NaN
is stored, float(None) raises TypeError. -/
def gaugeSetFloat : PyVal → Except String Val
  | .pyNone => .error "TypeError"
  | .pyNum q => .ok (.rat q)
  | .pyNan => .ok .nan

/-- The wind-gust sample value as published by update_openweather_metrics:
the wind_gust accessor fed into Gauge.set. -/
def windGustSample (current : Option (Option ℚ)) : Except String Val :=
  gaugeSetFloat (windGust current)

/-! ## Nest ThermostatCollector (nest_prometheus_exporter.py) -/

/-- MIN_INTERVAL = timedelta(seconds=59). Time is modelled in whole
seconds. -/
def minIntervalSecs : ℕ := 59

/-- The mutable fields of ThermostatCollector: the cached upstream state
(of abstract payload type) and the time of the last successful update. -/
structure Collector (α : Type) where
  state : α
  lastUpdated : Option ℕ
deriving DecidableEq

/-- get_latest_state: now is the clock reading at entry, nowAfter the
reading taken after the outbound fetch completes, fetched the decoded
response body. If the cache was updated less than MIN_INTERVAL ago, the
cached pair is returned, nothing is fetched and the fields are unchanged;
otherwise the fetch happens, both fields are overwritten and the fresh pair
is returned. The returned Bool records whether the outbound request was
made. -/
def getLatestState {α : Type} (c : Collector α) (now nowAfter : ℕ) (fetched : α) :
    (α × Option ℕ) × Collector α × Bool :=
  match c.lastUpdated with
  | some t =>
    if t + minIntervalSecs > now then ((c.state, some t), c, false)
    else ((fetched, some nowAfter), ⟨fetched, some nowAfter⟩, true)
  | none => ((fetched, some nowAfter), ⟨fetched, some nowAfter⟩, true)

/-- The lib.py /metrics handler: the response body is
prometheus_client.generate_latest() of the current registry, and no
outbound request is made (the Bool records whether a fetch occurred). -/
def libMetricsHandler (ms : MetricSet) : MetricSet × Bool := (ms, false)

/-! ## Scheduler (utils.periodic)

periodic sets t_next to the current monotonic time, then loops: sleep until
t_next (the inner while loop; asyncio.sleep is modelled as waking exactly at
the requested time), run the cycle, then advance t_next by exactly one
interval. The simulation below runs it over a list of cycle durations. -/

/-- The scheduler's clock state: the current monotonic time and t_next. -/
structure Sched where
  now : ℕ
  tNext : ℕ
deriving DecidableEq

/-- One iteration of the periodic loop body for a cycle of the given
duration: wait until t_next if it is still in the future (so the cycle
starts at max now t_next), run the cycle, advance t_next by interval.
Returns the cycle's start time and the next state. -/
def schedStep (interval : ℕ) (s : Sched) (dur : ℕ) : ℕ × Sched :=
  let start := max s.now s.tNext
  (start, ⟨start + dur, s.tNext + interval⟩)

/-- The start times of the cycles of periodic run from state s with the
given durations. -/
def schedStarts (interval : ℕ) (s : Sched) : List ℕ → List ℕ
  | [] => []
  | d :: ds =>
    (schedStep interval s d).1 :: schedStarts interval (schedStep interval s d).2 ds

/-- The scheduler state after running the given cycles. -/
def schedAfter (interval : ℕ) (s : Sched) : List ℕ → Sched
  | [] => s
  | d :: ds => schedAfter interval (schedStep interval s d).2 ds

/-- The start times of periodic entered at time t0 (t_next is initialised
to the current monotonic time). -/
def periodicStarts (interval t0 : ℕ) (durs : List ℕ) : List ℕ :=
  schedStarts interval ⟨t0, t0⟩ durs

/-- How many cycles fire late, i.e. strictly after their scheduled time
t0 + k * interval. A late fire is an immediate catch-up fire: the scheduler
did not sleep before it. -/
def lateFireCount (interval t0 : ℕ) (durs : List ℕ) : ℕ :=
  (periodicStarts interval t0 durs).enum.countP
    (fun p => decide (t0 + p.1 * interval < p.2))

/-! ## with_connection_retry around periodic (hue / openweather main)

Both main functions run with_connection_retry(periodic, update, ...): the
retry wrapper calls periodic, and catches only aiohttp.ClientConnectorError
escaping it. On such an error it logs, sleeps the backoff, and calls
periodic again from scratch (so periodic re-initialises t_next to the
current time). Any other exception, e.g. the ClientResponseError raised by
response.raise_for_status() on a non-2xx status, escapes the wrapper and
terminates the program. The run is driven by a script of fetch outcomes,
one per attempted cycle. -/

/-- The outcome of one attempted cycle: a successful fetch of the given
duration whose translation publishes the given samples, a connection-level
failure after the given duration, or a rejected response
(raise_for_status on a non-2xx, before any gauge is touched). -/
inductive Attempt where
  | ok : ℕ → List Sample → Attempt
  | connErr : ℕ → Attempt
  | rejected : ℕ → Attempt
deriving DecidableEq

/-- Whether an attempt is a rejected (non-connectivity) failure. -/
def Attempt.isRejected : Attempt → Bool
  | .rejected _ => true
  | _ => false

/-- The observable result of a run: either the loop is still alive with the
given clock state, registry and list of cycle start times, or the process
crashed at the given time with the registry as it stood, having fired the
listed cycles. -/
inductive SysResult where
  | running : ℕ → ℕ → MetricSet → List ℕ → SysResult
  | crashed : ℕ → MetricSet → List ℕ → SysResult
deriving DecidableEq

/-- Record one more cycle start at the front of a result's fire list. -/
def SysResult.consFire (t : ℕ) : SysResult → SysResult
  | .running n tn ms fs => .running n tn ms (t :: fs)
  | .crashed tc ms fs => .crashed tc ms (t :: fs)

/-- The t_next recorded in a result (0 for a crashed run). -/
def SysResult.tNextOf : SysResult → ℕ
  | .running _ tn _ _ => tn
  | .crashed _ _ _ => 0

/-- The registry recorded in a result. -/
def SysResult.msOf : SysResult → MetricSet
  | .running _ _ ms _ => ms
  | .crashed _ ms _ => ms

/-- Whether the run crashed. -/
def SysResult.isCrashed : SysResult → Bool
  | .crashed _ _ _ => true
  | _ => false

/-- with_connection_retry(periodic, update, ...) from state (now, t_next):
a cycle starts at max now t_next. On success its samples are published and
t_next advances by one interval. On a connection error the exception
escapes periodic, the wrapper sleeps the backoff and restarts periodic,
which re-initialises t_next to the then-current time. On a rejected
response the exception escapes the wrapper too: the run crashes with the
registry untouched by the failing cycle and the rest of the script never
runs. -/
def sysRun (interval backoff : ℕ) (now tNext : ℕ) (ms : MetricSet) :
    List Attempt → SysResult
  | [] => .running now tNext ms []
  | .ok d samples :: rest =>
    .consFire (max now tNext)
      (sysRun interval backoff (max now tNext + d) (tNext + interval)
        (publish ms samples) rest)
  | .connErr d :: rest =>
    .consFire (max now tNext)
      (sysRun interval backoff (max now tNext + d + backoff)
        (max now tNext + d + backoff) ms rest)
  | .rejected d :: _ => .crashed (max now tNext + d) ms [max now tNext]

/-- The whole program from startup at time t0: periodic initialises t_next
to the current time and the registry starts empty. -/
def systemRun (interval backoff t0 : ℕ) (script : List Attempt) : SysResult :=
  sysRun interval backoff t0 t0 [] script

/-- Modelled from the spec: the claimed retry behaviour in which the
backoff pause does not advance or reset ScheduleState — identical to sysRun
except that a connection error leaves t_next untouched while the clock
advances over the failed attempt and the backoff sleep. Stated only to be
compared with sysRun, the model of the source. -/
def specRetryRun (interval backoff : ℕ) (now tNext : ℕ) (ms : MetricSet) :
    List Attempt → SysResult
  | [] => .running now tNext ms []
  | .ok d samples :: rest =>
    .consFire (max now tNext)
      (specRetryRun interval backoff (max now tNext + d) (tNext + interval)
        (publish ms samples) rest)
  | .connErr d :: rest =>
    .consFire (max now tNext)
      (specRetryRun interval backoff (max now tNext + d + backoff) tNext ms rest)
  | .rejected d :: _ => .crashed (max now tNext + d) ms [max now tNext]

/-! ## Publish racing concurrent scrapes (asyncio cooperative model)

The process is a single-threaded asyncio event loop: control changes task
only at an await. update_metrics (nest_prometheus_exporter.py) and the
publish loops of the hue and openweather update functions contain no await
between their Gauge.set calls, so one cycle's publish executes as one
atomic block; the /metrics handler's generate_latest() is likewise a
synchronous read. A concurrent execution is therefore an interleaving of
whole blocks. -/

/-- One atomic block of a task: a publish of one cycle's samples, or a
scrape's read of the registry. -/
inductive TaskBlock where
  | publishBlock : List Sample → TaskBlock
  | readBlock : TaskBlock
deriving DecidableEq

/-- Execute an interleaving of blocks from registry ms: returns the final
registry and the list of registry states observed by the read blocks. -/
def execBlocks (ms : MetricSet) : List TaskBlock → MetricSet × List MetricSet
  | [] => (ms, [])
  | .publishBlock samples :: rest => execBlocks (publish ms samples) rest
  | .readBlock :: rest =>
    ((execBlocks ms rest).1, ms :: (execBlocks ms rest).2)

/-! ## Theorems -/

/-- Claim C7: for every sensor snapshot flagged unreachable, every derived
numeric sample (temperature, lux, raw light level) is emitted with value
NaN, and the emitted series keys are exactly the ones a reachable sensor
would produce — no sample is omitted. -/
theorem hue_unreachable_all_nan (uid sid : String) (tp ll : Option (Option ℚ)) (q r : ℚ) :
    updateTemperatureMetrics ⟨uid, false, tp, ll⟩ sid =
      .ok [⟨"hue_sensor_temperature_c", hueLabels sid uid, .nan⟩] ∧
    updateLightlevelMetrics ⟨uid, false, tp, ll⟩ sid =
      .ok [⟨"hue_sensor_lightlevel", hueLabels sid uid, .nan⟩,
           ⟨"hue_sensor_lightlevel_raw", hueLabels sid uid, .nan⟩] ∧
    keysOfE (updateTemperatureMetrics ⟨uid, true, some (some q), ll⟩ sid) =
      keysOfE (updateTemperatureMetrics ⟨uid, false, tp, ll⟩ sid) ∧
    keysOfE (updateLightlevelMetrics ⟨uid, true, tp, some (some r)⟩ sid) =
      keysOfE (updateLightlevelMetrics ⟨uid, false, tp, ll⟩ sid) :=
  ⟨rfl, rfl, rfl, rfl⟩

/-- Claim C8: unit conversions reproduce the exact formulas: the published
temperature for raw v is v / 100 (so raw 2150 yields 21.50 = 43/2), and the
published lux for raw r is 10 ** ((r - 1) / 10000) (so raw 12345 yields
10 ** (12344/10000), exponent 1543/1250 in lowest terms). -/
theorem hue_unit_conversion_exact (uid sid : String) (tp ll : Option (Option ℚ)) (q r : ℚ) :
    updateTemperatureMetrics ⟨uid, true, some (some q), ll⟩ sid =
      .ok [⟨"hue_sensor_temperature_c", hueLabels sid uid, .rat (q / 100)⟩] ∧
    updateLightlevelMetrics ⟨uid, true, tp, some (some r)⟩ sid =
      .ok [⟨"hue_sensor_lightlevel", hueLabels sid uid, .pow10 ((r - 1) / 10000)⟩,
           ⟨"hue_sensor_lightlevel_raw", hueLabels sid uid, .rat r⟩] ∧
    (2150 / 100 : ℚ) = 43 / 2 ∧
    ((12345 - 1) / 10000 : ℚ) = 1543 / 1250 :=
  ⟨rfl, rfl, by norm_num, by norm_num⟩

/-- Claim C9, counterexample: a wind_gust key present with JSON null is not
published as NaN — OneCallResponse.wind_gust returns None itself (dict.get
only substitutes the NaN default for a missing key) and Gauge.set(None)
raises TypeError, contradicting the claim that a null optional field maps
to NaN and never to an error. -/
theorem windgust_null_counterexample :
    windGustSample (some none) = .error "TypeError" ∧
    windGustSample (some none) ≠ .ok Val.nan :=
  ⟨rfl, fun h => Except.noConfusion h⟩

/-- Claim C9 (amended): an absent optional field in the form each
integration anticipates maps to NaN and never to zero — a missing wind_gust
key (openweather) and a null sensor state value (hue) each yield NaN — but
the other absence form raises: a null wind_gust raises TypeError at
Gauge.set, and a missing hue state key raises KeyError. -/
theorem absent_field_policy :
    windGustSample none = .ok Val.nan ∧
    getState true (some none) = .ok Val.nan ∧
    Val.nan ≠ Val.rat 0 ∧
    windGustSample (some none) = .error "TypeError" ∧
    getState true none = .error "KeyError" :=
  ⟨rfl, rfl, fun h => Val.noConfusion h, rfl, rfl⟩

/-- Claim C10: a get_latest_state call made less than MIN_INTERVAL (59 s)
after the previous successful update returns the cached (state,
last_updated) pair, makes no outbound request (the Bool is false), and
leaves the collector's fields unchanged. -/
theorem collector_cache_fresh {α : Type} (st : α) (t now nowAfter : ℕ) (f : α)
    (h : now < t + minIntervalSecs) :
    getLatestState (⟨st, some t⟩ : Collector α) now nowAfter f =
      ((st, some t), ⟨st, some t⟩, false) := by
  simp [getLatestState, h]

/-- Witness for collector_cache_fresh: a call 20 s after an update at
t = 100 is served from cache with no fetch and no field change. -/
theorem collector_cache_fresh_witness :
    getLatestState (⟨(42 : ℕ), some 100⟩ : Collector ℕ) 120 121 7 =
      ((42, some 100), ⟨42, some 100⟩, false) :=
  collector_cache_fresh 42 100 120 121 7 (by decide)

/-- Claim C6, counterexample: the nest_prometheus_exporter /metrics handler
calls get_latest_state, and on a collector that has never updated (or whose
cache is stale) this performs an outbound upstream fetch — so a scrape does
trigger a fetch, contradicting the claim that no inbound request ever does. -/
theorem scrape_fetch_counterexample :
    (getLatestState (⟨(0 : ℕ), none⟩ : Collector ℕ) 100 101 7).2.2 = true ∧
    (getLatestState (⟨(0 : ℕ), none⟩ : Collector ℕ) 100 101 7).2.2 ≠ false := by
  decide

/-- Claim C6 (amended): the lib.py /metrics handler (hue and openweather
exporters) is served solely from the current MetricSet and never fetches;
the nest_prometheus_exporter /metrics handler calls get_latest_state, which
fetches upstream exactly when there is no cached update or the last update
is at least MIN_INTERVAL (59 s) old, and serves purely from cache
otherwise. -/
theorem metrics_scrape_fetch_policy {α : Type} (st : α) (t now nowAfter : ℕ) (f : α) :
    ((getLatestState (⟨st, none⟩ : Collector α) now nowAfter f).2.2 = true) ∧
    (t + minIntervalSecs ≤ now →
      (getLatestState (⟨st, some t⟩ : Collector α) now nowAfter f).2.2 = true) ∧
    (now < t + minIntervalSecs →
      (getLatestState (⟨st, some t⟩ : Collector α) now nowAfter f).2.2 = false) ∧
    (∀ ms : MetricSet, libMetricsHandler ms = (ms, false)) := by
  refine ⟨rfl, fun h => ?_, fun h => ?_, fun ms => rfl⟩
  · have hn : ¬ (t + minIntervalSecs > now) := by omega
    simp [getLatestState, hn]
  · simp [getLatestState, h]

/-- Witness for metrics_scrape_fetch_policy: a never-updated collector
fetches, a 90-s-stale one fetches, a 20-s-fresh one does not, and the
lib.py handler on an empty registry fetches nothing. -/
theorem metrics_scrape_fetch_policy_witness :
    (getLatestState (⟨(0 : ℕ), none⟩ : Collector ℕ) 5 6 1).2.2 = true ∧
    (getLatestState (⟨(0 : ℕ), some 10⟩ : Collector ℕ) 100 101 1).2.2 = true ∧
    (getLatestState (⟨(0 : ℕ), some 100⟩ : Collector ℕ) 120 121 1).2.2 = false ∧
    libMetricsHandler [] = ([], false) :=
  ⟨(metrics_scrape_fetch_policy 0 10 5 6 1).1,
   (metrics_scrape_fetch_policy 0 10 100 101 1).2.1 (by decide),
   (metrics_scrape_fetch_policy 0 100 120 121 1).2.2.1 (by decide),
   (metrics_scrape_fetch_policy (0 : ℕ) 0 0 0 0).2.2.2 []⟩

/-- Closed form for the periodic scheduler when no cycle reaches one full
interval: starting from a state whose clock has not passed t_next, every
cycle starts exactly at its scheduled time t_next + k * interval. -/
theorem schedStarts_closed (interval : ℕ) :
    ∀ (durs : List ℕ) (now tNext : ℕ), now ≤ tNext →
      (∀ d ∈ durs, d < interval) →
      schedStarts interval ⟨now, tNext⟩ durs =
        (List.range durs.length).map (fun k => tNext + k * interval)
  | [], _, _, _, _ => by simp [schedStarts]
  | d :: ds, now, tNext, hnt, hd => by
    have hstart : max now tNext = tNext := Nat.max_eq_right hnt
    have hd0 : d < interval := hd d (List.mem_cons_self d ds)
    have ih := schedStarts_closed interval ds (tNext + d) (tNext + interval)
      (by omega) (fun x hx => hd x (List.mem_cons_of_mem d hx))
    have harith : ∀ k : ℕ, tNext + interval + k * interval = tNext + (k + 1) * interval := by
      intro k; ring
    simp only [schedStarts, schedStep, hstart]
    rw [ih]
    simp only [List.length_cons, List.range_succ_eq_map, List.map_cons, List.map_map,
      harith, Nat.zero_mul, Nat.add_zero]
    have hcomp : ((fun k => tNext + k * interval) ∘ Nat.succ) =
        fun k => tNext + (k + 1) * interval := by
      funext k
      simp [Function.comp, Nat.succ_eq_add_one]
    rw [hcomp]

/-- Claim C2: for every run of cycles each taking less than one interval,
cycle k starts exactly at t0 + k * interval — t_next is advanced from its
previous value, not from the completion time — so consecutive starts are
exactly one interval apart and the long-run average cadence equals the
interval, independent of per-cycle processing time. -/
theorem periodic_drift_free (interval t0 : ℕ) (durs : List ℕ)
    (h : ∀ d ∈ durs, d < interval) :
    periodicStarts interval t0 durs =
      (List.range durs.length).map (fun k => t0 + k * interval) :=
  schedStarts_closed interval durs t0 t0 (le_refl t0) h

/-- Witness for periodic_drift_free: interval 60 from t0 = 5 with cycle
durations 10, 59, 0 starts the cycles at 5, 65, 125. -/
theorem periodic_drift_free_witness :
    periodicStarts 60 5 [10, 59, 0] = [5, 65, 125] :=
  (periodic_drift_free 60 5 [10, 59, 0] (by decide)).trans (by decide)

/-- Claim C3, counterexample: with interval 60, one cycle of duration 150
(the only overrunning cycle; the rest take 0) is followed by TWO immediate
catch-up fires — cycles 1 and 2 both start at time 150, both after their
scheduled times 60 and 120 — so a backlog of multiple immediate fires does
accumulate, contradicting the claim that at most one overdue fire is ever
compensated. -/
theorem periodic_overrun_backlog_counterexample :
    (60 < 150 ∧ 0 < 60) ∧
    periodicStarts 60 0 [150, 0, 0, 0] = [0, 150, 150, 180] ∧
    lateFireCount 60 0 [150, 0, 0, 0] = 2 ∧
    ¬ lateFireCount 60 0 [150, 0, 0, 0] ≤ 1 := by decide

/-- Claim C3 (amended): after any run t_next has advanced by exactly one
interval per completed cycle — scheduled fire times are never skipped — and
whenever the clock has reached t_next the next cycle fires immediately at
the current time with no sleep; consequently a cycle overrunning several
intervals is followed by several immediate catch-up fires, one per missed
scheduled time, until the schedule catches up. -/
theorem periodic_overrun_catchup :
    (∀ (interval : ℕ) (s : Sched) (durs : List ℕ),
      (schedAfter interval s durs).tNext = s.tNext + durs.length * interval) ∧
    (∀ (interval now tNext d : ℕ) (ds : List ℕ), tNext ≤ now →
      schedStarts interval ⟨now, tNext⟩ (d :: ds) =
        now :: schedStarts interval ⟨now + d, tNext + interval⟩ ds) := by
  constructor
  · intro interval s durs
    induction durs generalizing s with
    | nil => simp [schedAfter]
    | cons d ds ih =>
      simp only [schedAfter, schedStep, ih, List.length_cons]
      ring
  · intro interval now tNext d ds h
    simp [schedStarts, schedStep, Nat.max_eq_left h]

/-- Witness for periodic_overrun_catchup: two cycles advance t_next by two
intervals, and a scheduler whose clock (150) has passed t_next (60) fires
the next cycle immediately at 150. -/
theorem periodic_overrun_catchup_witness :
    (schedAfter 60 ⟨0, 0⟩ [150, 0]).tNext = 0 + 2 * 60 ∧
    schedStarts 60 ⟨150, 60⟩ [0] = 150 :: schedStarts 60 ⟨150 + 0, 60 + 60⟩ [] :=
  ⟨periodic_overrun_catchup.1 60 ⟨0, 0⟩ [150, 0],
   periodic_overrun_catchup.2 60 150 60 0 [] (by decide)⟩

/-- Recording a fire does not change whether a run crashed. -/
theorem consFire_isCrashed (t : ℕ) (r : SysResult) :
    (r.consFire t).isCrashed = r.isCrashed := by
  cases r <;> rfl

/-- Peeling the first element off an arithmetic-progression map. -/
theorem range_map_shift (a b n : ℕ) :
    (List.range (n + 1)).map (fun j => a + j * b) =
      a :: (List.range n).map (fun j => (a + b) + j * b) := by
  rw [List.range_succ_eq_map]
  simp only [List.map_cons, List.map_map, Nat.zero_mul, Nat.add_zero]
  have hcomp : ((fun j => a + j * b) ∘ Nat.succ) = fun j => (a + b) + j * b := by
    funext j
    simp only [Function.comp, Nat.succ_eq_add_one]
    ring
  rw [hcomp]

/-- A run started at t0 that hits k consecutive connection failures (each
caught by with_connection_retry, which sleeps the backoff and restarts
periodic) and then a success: the failed attempts fire at t0, t0 + backoff,
..., the successful cycle completes at t0 + k * backoff, and the next fire
is scheduled one interval after that recovery point. -/
theorem retry_family (interval backoff : ℕ) :
    ∀ (k t0 : ℕ),
      systemRun interval backoff t0 (List.replicate k (.connErr 0) ++ [.ok 0 []]) =
        .running (t0 + k * backoff) (t0 + k * backoff + interval) []
          ((List.range (k + 1)).map (fun j => t0 + j * backoff))
  | 0, t0 => by
    simp [systemRun, sysRun, SysResult.consFire, publish, List.range_succ]
  | (k + 1), t0 => by
    have ih := retry_family interval backoff k (t0 + backoff)
    unfold systemRun at ih ⊢
    simp only [List.replicate_succ, List.cons_append, sysRun, Nat.max_self, Nat.add_zero]
    simp only [List.append_eq] at ih ⊢
    rw [ih]
    simp only [SysResult.consFire]
    rw [range_map_shift t0 backoff (k + 1)]
    have h1 : t0 + (k + 1) * backoff = t0 + backoff + k * backoff := by ring
    rw [h1]

/-- Claim C4 (amended): on a connectivity failure the wrapper logs, waits
the fixed backoff (default 30 s) and retries, and the process never
terminates on such failures (any rejection-free script leaves the run
alive); but the backoff path RESETS ScheduleState — the retry restarts
periodic, which reinitialises next_fire_time to the then-current time — so
after k failures then a success the cadence resumes anchored at the
recovery point t0 + k * backoff, with the next fire one interval after it. -/
theorem retry_backoff_then_recover :
    (∀ (interval backoff k t0 : ℕ),
      systemRun interval backoff t0 (List.replicate k (.connErr 0) ++ [.ok 0 []]) =
        .running (t0 + k * backoff) (t0 + k * backoff + interval) []
          ((List.range (k + 1)).map (fun j => t0 + j * backoff))) ∧
    (∀ (interval backoff now tNext : ℕ) (ms : MetricSet) (script : List Attempt),
      (∀ a ∈ script, a.isRejected = false) →
      (sysRun interval backoff now tNext ms script).isCrashed = false) := by
  constructor
  · intro interval backoff k t0
    exact retry_family interval backoff k t0
  · intro interval backoff now tNext ms script
    induction script generalizing now tNext ms with
    | nil => intro _; rfl
    | cons a rest ih =>
      intro h
      cases a with
      | ok d samples =>
        simp only [sysRun, consFire_isCrashed]
        exact ih _ _ _ (fun x hx => h x (List.mem_cons_of_mem _ hx))
      | connErr d =>
        simp only [sysRun, consFire_isCrashed]
        exact ih _ _ _ (fun x hx => h x (List.mem_cons_of_mem _ hx))
      | rejected d =>
        exact absurd (h _ (List.mem_cons_self _ _)) (by simp [Attempt.isRejected])

/-- Witness for retry_backoff_then_recover: three connection failures then
a success, interval 60 and backoff 30 from t0 = 0: fires at 0, 30, 60, 90,
recovery at 90, next fire scheduled at 150; and a rejection-free script
leaves the run alive. -/
theorem retry_backoff_then_recover_witness :
    systemRun 60 30 0 (List.replicate 3 (.connErr 0) ++ [.ok 0 []]) =
      .running 90 150 [] [0, 30, 60, 90] ∧
    (sysRun 60 30 0 0 [] [.connErr 5, .ok 2 []]).isCrashed = false :=
  ⟨(retry_backoff_then_recover.1 60 30 3 0).trans (by decide),
   retry_backoff_then_recover.2 60 30 0 0 [] [.connErr 5, .ok 2 []] (by decide)⟩

/-- Claim C4, counterexample: with interval 60 and backoff 30 from t0 = 0,
a connection failure at the first fire followed by a successful retry
leaves the code's next_fire_time at 90 (restart resets t_next to the
recovery time 30, then one interval), while the claimed behaviour — the
backoff pause neither advancing nor resetting ScheduleState — would leave
it at 60. The backoff pause does reset ScheduleState. -/
theorem retry_schedule_reset_counterexample :
    (sysRun 60 30 0 0 [] [.connErr 0, .ok 0 []]).tNextOf = 90 ∧
    (specRetryRun 60 30 0 0 [] [.connErr 0, .ok 0 []]).tNextOf = 60 ∧
    (sysRun 60 30 0 0 [] [.connErr 0, .ok 0 []]).tNextOf ≠
      (specRetryRun 60 30 0 0 [] [.connErr 0, .ok 0 []]).tNextOf := by decide

/-- Claim C5 (amended): a cycle failing with a rejected (non-connectivity)
response is not retried and its publish is skipped — the registry at the
crash is exactly the registry produced by the cycles before it — but the
error propagates uncaught through with_connection_retry: the run crashes at
the failing cycle, the process exits, and no later cycle ever runs. -/
theorem rejected_crash_preserves (interval backoff : ℕ) :
    ∀ (pre : List Attempt) (now tNext : ℕ) (ms : MetricSet) (d : ℕ)
      (rest : List Attempt) (n2 t2 : ℕ) (ms2 : MetricSet) (f2 : List ℕ),
      (∀ a ∈ pre, a.isRejected = false) →
      sysRun interval backoff now tNext ms pre = .running n2 t2 ms2 f2 →
      sysRun interval backoff now tNext ms (pre ++ .rejected d :: rest) =
        .crashed (max n2 t2 + d) ms2 (f2 ++ [max n2 t2])
  | [], now, tNext, ms, d, rest, n2, t2, ms2, f2 => by
    intro _ hrun
    simp only [sysRun, SysResult.running.injEq] at hrun
    obtain ⟨h1, h2, h3, h4⟩ := hrun
    subst h1; subst h2; subst h3; subst h4
    simp [sysRun]
  | a :: pre, now, tNext, ms, d, rest, n2, t2, ms2, f2 => by
    intro hnr hrun
    cases a with
    | rejected dd =>
      exact absurd (hnr _ (List.mem_cons_self _ _)) (by simp [Attempt.isRejected])
    | ok dd samples =>
      simp only [sysRun] at hrun
      generalize hR : sysRun interval backoff (max now tNext + dd) (tNext + interval)
        (publish ms samples) pre = R at hrun
      cases R with
      | crashed tc msx fsx => simp [SysResult.consFire] at hrun
      | running nx tx msx fsx =>
        simp only [SysResult.consFire, SysResult.running.injEq] at hrun
        obtain ⟨h1, h2, h3, h4⟩ := hrun
        subst h1; subst h2; subst h3
        have hind := rejected_crash_preserves interval backoff pre (max now tNext + dd)
          (tNext + interval) (publish ms samples) d rest nx tx msx fsx
          (fun x hx => hnr x (List.mem_cons_of_mem _ hx)) hR
        simp only [List.cons_append, sysRun]
        simp only [List.append_eq]
        rw [hind]
        simp only [SysResult.consFire]
        rw [← h4]
        simp [List.cons_append]
    | connErr dd =>
      simp only [sysRun] at hrun
      generalize hR : sysRun interval backoff (max now tNext + dd + backoff)
        (max now tNext + dd + backoff) ms pre = R at hrun
      cases R with
      | crashed tc msx fsx => simp [SysResult.consFire] at hrun
      | running nx tx msx fsx =>
        simp only [SysResult.consFire, SysResult.running.injEq] at hrun
        obtain ⟨h1, h2, h3, h4⟩ := hrun
        subst h1; subst h2; subst h3
        have hind := rejected_crash_preserves interval backoff pre (max now tNext + dd + backoff)
          (max now tNext + dd + backoff) ms d rest nx tx msx fsx
          (fun x hx => hnr x (List.mem_cons_of_mem _ hx)) hR
        simp only [List.cons_append, sysRun]
        simp only [List.append_eq]
        rw [hind]
        simp only [SysResult.consFire]
        rw [← h4]
        simp [List.cons_append]

/-- Witness for rejected_crash_preserves: one successful cycle, then a
rejected response at the second fire (time 60): the run crashes at 60 with
the registry exactly as the first cycle left it, and the remaining script
never runs. -/
theorem rejected_crash_preserves_witness :
    sysRun 60 30 0 0 [] [.ok 0 [], .rejected 0, .ok 0 []] = .crashed 60 [] [0, 60] :=
  rejected_crash_preserves 60 30 [.ok 0 []] 0 0 [] 0 [.ok 0 []] 0 60 [] [0]
    (by decide) (by decide)

/-- Claim C5, counterexample: a cycle rejected at its fire (time 60) indeed
leaves the registry exactly as the previous cycle published it (value 300,
not the later 301), but the run CRASHES: the third scheduled cycle never
fires and the process exits, contradicting the claim that the next cycle
proceeds normally and the process does not exit. -/
theorem rejected_exits_counterexample :
    systemRun 60 30 0
        [.ok 0 [⟨"owm_temperature", [("location", "x")], .rat 300⟩],
         .rejected 0,
         .ok 0 [⟨"owm_temperature", [("location", "x")], .rat 301⟩]] =
      .crashed 60 [(("owm_temperature", [("location", "x")]), .rat 300)] [0, 60] ∧
    (systemRun 60 30 0
        [.ok 0 [⟨"owm_temperature", [("location", "x")], .rat 300⟩],
         .rejected 0,
         .ok 0 [⟨"owm_temperature", [("location", "x")], .rat 301⟩]]).isCrashed = true := by
  decide

/-- In a segment of the schedule containing only read blocks the registry
never changes, so every read observes the same state. -/
theorem execBlocks_all_reads : ∀ (ms : MetricSet) (sched : List TaskBlock),
    (∀ b ∈ sched, b = TaskBlock.readBlock) →
    ∀ obs ∈ (execBlocks ms sched).2, obs = ms := by
  intro ms sched
  induction sched with
  | nil => intro _ obs hobs; simp [execBlocks] at hobs
  | cons b rest ih =>
    intro h obs hobs
    have hb : b = TaskBlock.readBlock := h b (List.mem_cons_self _ _)
    subst hb
    simp only [execBlocks] at hobs
    rcases List.mem_cons.1 hobs with h1 | h1
    · exact h1
    · exact ih (fun x hx => h x (List.mem_cons_of_mem _ hx)) obs h1

/-- Claim C1: under the single-threaded asyncio event loop (tasks
interleave only at awaits, and one cycle's publish is a single atomic block
because update_metrics and the hue/openweather publish loops contain no
await), any interleaving of one publish among arbitrarily many concurrent
scrape reads lets every read observe either the complete pre-cycle registry
or the complete post-cycle registry — never a partially-updated mix. -/
theorem publish_atomic (ms0 : MetricSet) (samples : List Sample) :
    ∀ (r1 r2 : List TaskBlock),
      (∀ b ∈ r1, b = TaskBlock.readBlock) →
      (∀ b ∈ r2, b = TaskBlock.readBlock) →
      ∀ obs ∈ (execBlocks ms0 (r1 ++ .publishBlock samples :: r2)).2,
        obs = ms0 ∨ obs = publish ms0 samples := by
  intro r1
  induction r1 with
  | nil =>
    intro r2 _ h2 obs hobs
    simp only [List.nil_append, execBlocks] at hobs
    right
    exact execBlocks_all_reads (publish ms0 samples) r2 h2 obs hobs
  | cons b r1 ih =>
    intro r2 h1 h2 obs hobs
    have hb : b = TaskBlock.readBlock := h1 b (List.mem_cons_self _ _)
    subst hb
    simp only [List.cons_append, execBlocks] at hobs
    rcases List.mem_cons.1 hobs with he | he
    · left; exact he
    · exact ih r2 (fun x hx => h1 x (List.mem_cons_of_mem _ hx)) h2 obs he

/-- Witness for publish_atomic: a reader scheduled before and a reader
scheduled after one publish of a single sample into an empty registry; the
first reader's observation (the empty registry) is one of the two allowed
snapshots. -/
theorem publish_atomic_witness :
    ([] : MetricSet) = [] ∨
      ([] : MetricSet) = publish [] [⟨"m", [], Val.rat 1⟩] :=
  publish_atomic [] [⟨"m", [], Val.rat 1⟩] [.readBlock] [.readBlock]
    (by decide) (by decide) [] (by decide)
